import Mathlib

/-! The triSYCL pipe accessor.

A shallow embedding of `include/CL/sycl/pipe/detail/accessor.hpp`
(`cl::sycl::detail::accessor<T, 1, AccessMode, access::pipe>`) together with the
pipe it forwards to, and the properties of the accessor's operations.

* References (`detail::pipe<T> &implementation`, `T &value`, `*this`) are made
  explicit: pipes live in a heap indexed by addresses, an accessor stores the
  address of its pipe, and every member function takes the state it may touch
  and gives back the state it leaves.
* The destination `T &value` of a read designates an object: either one that is
  no part of the accessor the read is called on, or, for `T = bool`, the public
  `mutable` member `ok` of that very accessor, which the read also assigns.
* `std::size_t` quantities are natural numbers; no operation below can exceed
  the capacity of the pipe, so no wrap-around is involved.
* The mutex of the pipe is not represented: the development is sequential.
-/

namespace cl.sycl

namespace access

/-- Modelled from the spec: the access modes of `CL/sycl/access.hpp`, a header that
is included by the accessor but is not part of the sources at hand. The
specification lists `Mode ∈ {read, write, read_write}`. -/
inductive mode where
  | read
  | write
  | read_write
  deriving DecidableEq, Repr

end access

/-- The command group handler. The accessor header only forward-declares it
(`class handler;`) and the constructor never looks at it. -/
structure handler where
  deriving DecidableEq, Repr

namespace detail

/-- Modelled from the spec: `detail::pipe<T>` of `CL/sycl/pipe/detail/pipe.hpp`, which
the accessor includes but which is not part of the sources at hand. The fields
are the attributes of section 3 of the specification: `capacity` (fixed at
construction, and the value returned by `capacity()`), `storage` (the `N` slots,
`none` for a vacant slot), `head` (next slot to read), `tail` (next slot to
write) and `count` (number of occupied slots). -/
structure pipe (T : Type) where
  capacity : Nat
  storage : List (Option T)
  head : Nat
  tail : Nat
  count : Nat
  deriving DecidableEq, Repr

namespace pipe

variable {T : Type}

/-- Modelled from the spec: the state right after construction (section 4.1):
`N` vacant slots and `count = head = tail = 0`. -/
def init (N : Nat) : pipe T :=
  { capacity := N, storage := List.replicate N none, head := 0, tail := 0, count := 0 }

/-- Modelled from the spec: `Pipe(capacity: N)`; `capacity == 0` is rejected at
construction. -/
def construct (N : Nat) : Option (pipe T) :=
  if N = 0 then none else some (init N)

/-- Modelled from the spec: `size()` returns the current value of `count`. -/
def size (p : pipe T) : Nat := p.count

/-- Modelled from the spec: `empty()` returns `count == 0`. -/
def empty (p : pipe T) : Bool := decide (p.count = 0)

/-- Modelled from the spec: `full()` returns `count == capacity`. -/
def full (p : pipe T) : Bool := decide (p.count = p.capacity)

/-- Modelled from the spec: `write(value): bool`, the non-blocking push of section 4.1.
If `count == capacity` return `false` with the buffer untouched; otherwise copy
`value` into slot `tail`, advance `tail` modulo the capacity, increment `count`
and return `true`. -/
def write (p : pipe T) (value : T) : Bool × pipe T :=
  if p.count = p.capacity then (false, p)
  else
    (true, { p with
      storage := p.storage.set p.tail (some value)
      tail := (p.tail + 1) % p.capacity
      count := p.count + 1 })

/-- Modelled from the spec: `read(out: &T): bool`, the non-blocking pop of section 4.1.
If `count == 0` return `false` with `out` untouched; otherwise move the element
of slot `head` into `out`, vacate the slot, advance `head` modulo the capacity,
decrement `count` and return `true`. The second component is the content of
`out` after the call. -/
def read (p : pipe T) (out : T) : Bool × T × pipe T :=
  if p.count = 0 then (false, out, p)
  else
    (true, ((p.storage.get? p.head).join).getD out, { p with
      storage := p.storage.set p.head none
      head := (p.head + 1) % p.capacity
      count := p.count - 1 })

/-- The slots visited when walking `n` steps from slot `start`, wrapping at the
capacity `N`. -/
def slots (storage : List (Option T)) (N : Nat) : Nat → Nat → List (Option T)
  | _, 0 => []
  | start, n + 1 => (storage.get? start).join :: slots storage N ((start + 1) % N) n

/-- The elements held by the pipe, oldest first: the content of the `count` slots
starting at `head` (invariant I2 of the specification). -/
def elems (p : pipe T) : List (Option T) :=
  slots p.storage p.capacity p.head p.count

/-- The invariants of section 3 of the specification: positive capacity, one slot
per unit of capacity, `count ≤ capacity` (I1), `head` inside the buffer, `tail`
being `count` slots after `head`, and every slot between them occupied (I2). -/
def wf (p : pipe T) : Prop :=
  0 < p.capacity ∧ p.storage.length = p.capacity ∧ p.count ≤ p.capacity ∧
  p.head < p.capacity ∧ p.tail = (p.head + p.count) % p.capacity ∧
  ∀ o ∈ elems p, o.isSome = true

instance (p : pipe T) : Decidable (wf p) := by
  unfold wf
  infer_instance

end pipe

/-- The memory in which pipes live: `detail::pipe<T> &` is an address into it. -/
abbrev PipeHeap (T : Type) := Nat → pipe T

/-- The accessor `accessor<T, 1, AccessMode, access::pipe>`. The template parameter `AccessMode` is
kept as a field that no operation modifies; `implementation` is the reference
to the pipe (its address in the heap); `ok` is the `mutable` success status of
the last pipe operation, `false` by its default member initialiser. -/
structure accessor (T : Type) where
  AccessMode : access.mode
  implementation : Nat
  ok : Bool := false
  deriving DecidableEq, Repr

namespace accessor

variable {T : Type}

/-- The constructor `accessor(detail::pipe<T> &p, handler &command_group_handler)`: binds
`implementation` to `p`; `ok` keeps its default `false`; the handler is unused.
(Named `construct` because the name of the type is taken inside its own
namespace.) -/
def construct (AccessMode : access.mode) (p : Nat) (_command_group_handler : handler) :
    accessor T :=
  { AccessMode := AccessMode, implementation := p, ok := false }

/-- The implicitly defined copy constructor (the struct declares none): the copy
is bound to the same pipe and starts with the same `ok`. -/
def copy (other : accessor T) : accessor T :=
  { AccessMode := other.AccessMode, implementation := other.implementation, ok := other.ok }

/-- The member `capacity()`: `return implementation.capacity();`. -/
def capacity (a : accessor T) (h : PipeHeap T) : Nat :=
  (h a.implementation).capacity

/-- The member `size()`: `return implementation.size();`. -/
def size (a : accessor T) (h : PipeHeap T) : Nat :=
  (h a.implementation).size

/-- The member `empty()`: `return implementation.empty();`. -/
def empty (a : accessor T) (h : PipeHeap T) : Bool :=
  (h a.implementation).empty

/-- The member `full()`: `return implementation.full();`. -/
def full (a : accessor T) (h : PipeHeap T) : Bool :=
  (h a.implementation).full

/-- The conversion `operator bool()`: `return ok;`. -/
def operator_bool (a : accessor T) : Bool :=
  a.ok

/-- The member `write(const T &value)`: `ok = implementation.write(value); return *this;`.
The result is the handle after the call (the object `*this` designates) and the
heap after the call. -/
def write (a : accessor T) (value : T) (h : PipeHeap T) : accessor T × PipeHeap T :=
  let r := (h a.implementation).write value
  ({ a with ok := r.1 }, Function.update h a.implementation r.2)

/-- The member `operator<<(const T &value)`: `return write(value);`. -/
def operator_shl (a : accessor T) (value : T) (h : PipeHeap T) : accessor T × PipeHeap T :=
  a.write value h

end accessor

/-- The object that the destination `T &value` of a read designates, seen from the
accessor the read is called on. `object x0`: an object that is no part of that
accessor, holding `x0` before the call. `ok hT`: the accessor's own member
`ok`, which is public and `mutable`; it has type `bool`, so this destination
exists only for `T = bool`. (A destination inside the storage of a pipe is
excluded by the caller contract of section 4.1 of the specification.) -/
inductive destination (T : Type) where
  | object (x0 : T)
  | ok (hT : T = Bool)
  deriving DecidableEq

namespace destination

variable {T : Type}

/-- The content of the destination, given the accessor the read is called on. -/
def load (a : accessor T) : destination T → T
  | object x0 => x0
  | ok hT => cast hT.symm a.ok

/-- Assignment of `x` to the destination: the accessor and the destination it
leaves. An assignment to the accessor's own `ok` changes the accessor. -/
def store (a : accessor T) (x : T) : destination T → accessor T × destination T
  | object _ => (a, object x)
  | ok hT => ({ a with ok := cast hT x }, ok hT)

/-- Whether the destination is the `ok` of the accessor the read is called on. -/
def isOk : destination T → Bool
  | object _ => false
  | ok _ => true

end destination

namespace accessor

variable {T : Type}

/-- The member `read(T &value)`: `ok = implementation.read(value); return *this;`.
First the pipe's read runs on the content of the destination and what it leaves
in `value` is stored into the destination; then the returned flag is assigned
to `ok`. The result is the handle after the call, the content of the
destination after the call, and the heap after the call. -/
def read (a : accessor T) (value : destination T) (h : PipeHeap T) :
    accessor T × T × PipeHeap T :=
  let r := (h a.implementation).read (value.load a)
  let s := value.store a r.2.1
  let self : accessor T := { s.1 with ok := r.1 }
  (self, s.2.load self, Function.update h a.implementation r.2.2)

/-- The member `operator>>(T &value)`: `return read(value);`. -/
def operator_shr (a : accessor T) (value : destination T) (h : PipeHeap T) :
    accessor T × T × PipeHeap T :=
  a.read value h

end accessor

/-! ## Programs over accessor objects

Accessors are objects too: `ok` is `mutable`, and a copy is a distinct object
bound to the same pipe. A program state holds the pipes and the accessor
objects by address; a call names the object it is made on. -/

/-- The program state: pipe objects and accessor objects, by address. -/
structure Memory (T : Type) where
  pipes : PipeHeap T
  accessors : Nat → accessor T

/-- The calls a program can make on accessor objects. For `read` and `operator>>`
the argument `value` is the destination: an object outside the accessor
objects of the program, with its content before the call, or the `ok` of the
accessor the call is made on. (A destination that is the `ok` of another
accessor would be an assignment to that public member from outside its owner,
as a plain assignment is; programs here make neither.) -/
inductive Call (T : Type) where
  | construct (dst : Nat) (AccessMode : access.mode) (p : Nat)
  | copy (dst src : Nat)
  | write (a : Nat) (value : T)
  | operator_shl (a : Nat) (value : T)
  | read (a : Nat) (value : destination T)
  | operator_shr (a : Nat) (value : destination T)
  | capacity (a : Nat)
  | size (a : Nat)
  | empty (a : Nat)
  | full (a : Nat)
  | operator_bool (a : Nat)
  deriving DecidableEq

/-- What a call did, as seen by the caller. `wrote a p value success`: a `write` on
accessor `a`, bound to pipe `p`, of `value`, for which the pipe returned
`success`. `got a p value success`: a `read` on accessor `a`, bound to pipe
`p`, that left `value` in the destination and for which the pipe returned
`success`. -/
inductive Event (T : Type) where
  | constructed (a : Nat) (p : Nat)
  | copied (dst src : Nat)
  | wrote (a : Nat) (p : Nat) (value : T) (success : Bool)
  | got (a : Nat) (p : Nat) (value : T) (success : Bool)
  | size_t (a : Nat) (n : Nat)
  | bool (a : Nat) (b : Bool)
  deriving DecidableEq, Repr

namespace Call

variable {T : Type}

/-- The observers: `capacity()`, `size()`, `empty()`, `full()` and the boolean
conversion. -/
def isObserver : Call T → Bool
  | capacity _ => true
  | size _ => true
  | empty _ => true
  | full _ => true
  | operator_bool _ => true
  | _ => false

/-- Whether the call is a `read` or an `operator>>` whose destination is the `ok`
of the accessor it is called on. -/
def readsIntoOk : Call T → Bool
  | read _ value => value.isOk
  | operator_shr _ value => value.isOk
  | _ => false

end Call

namespace Memory

variable {T : Type}

/-- Execution of one call: the member function is run on the object at the given
address and the object it leaves is stored back at that address. The flag of a
`wrote` or `got` event is the flag returned by the pipe. -/
def step (m : Memory T) : Call T → Memory T × Event T
  | .construct dst AccessMode p =>
    let r : accessor T := accessor.construct AccessMode p handler.mk
    ({ m with accessors := Function.update m.accessors dst r }, .constructed dst p)
  | .copy dst src =>
    let r := (m.accessors src).copy
    ({ m with accessors := Function.update m.accessors dst r }, .copied dst src)
  | .write a value =>
    let r := (m.accessors a).write value m.pipes
    ({ pipes := r.2, accessors := Function.update m.accessors a r.1 },
      .wrote a (m.accessors a).implementation value
        ((m.pipes (m.accessors a).implementation).write value).1)
  | .operator_shl a value =>
    let r := (m.accessors a).operator_shl value m.pipes
    ({ pipes := r.2, accessors := Function.update m.accessors a r.1 },
      .wrote a (m.accessors a).implementation value
        ((m.pipes (m.accessors a).implementation).write value).1)
  | .read a value =>
    let r := (m.accessors a).read value m.pipes
    ({ pipes := r.2.2, accessors := Function.update m.accessors a r.1 },
      .got a (m.accessors a).implementation r.2.1
        ((m.pipes (m.accessors a).implementation).read (value.load (m.accessors a))).1)
  | .operator_shr a value =>
    let r := (m.accessors a).operator_shr value m.pipes
    ({ pipes := r.2.2, accessors := Function.update m.accessors a r.1 },
      .got a (m.accessors a).implementation r.2.1
        ((m.pipes (m.accessors a).implementation).read (value.load (m.accessors a))).1)
  | .capacity a => (m, .size_t a ((m.accessors a).capacity m.pipes))
  | .size a => (m, .size_t a ((m.accessors a).size m.pipes))
  | .empty a => (m, .bool a ((m.accessors a).empty m.pipes))
  | .full a => (m, .bool a ((m.accessors a).full m.pipes))
  | .operator_bool a => (m, .bool a (m.accessors a).operator_bool)

/-- Execution of a sequence of calls, with the events in the order of the calls. -/
def run (m : Memory T) : List (Call T) → Memory T × List (Event T)
  | [] => (m, [])
  | c :: cs => ((run (m.step c).1 cs).1, (m.step c).2 :: (run (m.step c).1 cs).2)

end Memory

namespace Event

variable {T : Type}

/-- The success status of every accessor object after an event, given the status
`st` before it: a read or a write sets the status of the handle it was called
on to the flag the pipe returned, the constructor sets it to `false`, a copy
starts with the status of its source, nothing else changes a status. -/
def status (st : Nat → Bool) : Event T → Nat → Bool
  | constructed a _ => Function.update st a false
  | copied dst src => Function.update st dst (st src)
  | wrote a _ _ success => Function.update st a success
  | got a _ _ success => Function.update st a success
  | size_t _ _ => st
  | bool _ _ => st

/-- The status after a sequence of events. -/
def statusAfter (st : Nat → Bool) (log : List (Event T)) : Nat → Bool :=
  log.foldl status st

/-- The status as the specification words it (P5): the flag of the most recent read
or write of the handle, and `false` for a handle on which none was called since
it was constructed, however it was constructed. -/
def spec_status (st : Nat → Bool) : Event T → Nat → Bool
  | constructed a _ => Function.update st a false
  | copied dst _ => Function.update st dst false
  | wrote a _ _ success => Function.update st a success
  | got a _ _ success => Function.update st a success
  | size_t _ _ => st
  | bool _ _ => st

/-- The status after a sequence of events, as the specification words it. -/
def spec_statusAfter (st : Nat → Bool) (log : List (Event T)) : Nat → Bool :=
  log.foldl spec_status st

/-- The values accepted by pipe `p`: those of the successful writes, in order. -/
def written (p : Nat) : List (Event T) → List T
  | [] => []
  | wrote _ q value true :: log => if q = p then value :: written p log else written p log
  | _ :: log => written p log

/-- The values delivered by pipe `p`: those of the successful reads, in order. -/
def delivered (p : Nat) : List (Event T) → List T
  | [] => []
  | got _ q value true :: log => if q = p then value :: delivered p log else delivered p log
  | _ :: log => delivered p log

end Event

/-! ## The operations as the specification words them -/

namespace spec

variable {T : Type}

/-- Capabilities by mode, in the words of section 4.2 of the specification: a
write accessor and a read_write accessor expose `write` and `operator<<`, a
read accessor does not. -/
def exposes_write : access.mode → Bool
  | .read => false
  | .write => true
  | .read_write => true

/-- Capabilities by mode, in the words of section 4.2 of the specification: a read
accessor and a read_write accessor expose `read` and `operator>>`, a write
accessor does not. -/
def exposes_read : access.mode → Bool
  | .read => true
  | .write => false
  | .read_write => true

/-- The operation `write(v)` in the words of section 4.2 of the specification: in
`write` and `read_write` modes it delegates to the pipe's `write`, stores the
returned boolean into `ok` and returns the handle; in another mode the call is
rejected (`none`). -/
def write (a : accessor T) (v : T) (h : PipeHeap T) : Option (accessor T × PipeHeap T) :=
  if exposes_write a.AccessMode then
    some ({ a with ok := ((h a.implementation).write v).1 },
      Function.update h a.implementation ((h a.implementation).write v).2)
  else none

/-- The operation `read(out)` in the words of section 4.2 of the specification:
symmetric to `write`, in `read` and `read_write` modes; in another mode the
call is rejected (`none`). -/
def read (a : accessor T) (out : T) (h : PipeHeap T) : Option (accessor T × T × PipeHeap T) :=
  if exposes_read a.AccessMode then
    some ({ a with ok := ((h a.implementation).read out).1 },
      ((h a.implementation).read out).2.1,
      Function.update h a.implementation ((h a.implementation).read out).2.2)
  else none

end spec

/-! ## Initial states for the scenarios -/

/-- A heap in which every pipe has just been constructed with capacity `N`. -/
def PipeHeap.fresh {T : Type} (N : Nat) : PipeHeap T :=
  fun _ => pipe.init N

/-- A program state in which every pipe has just been constructed with capacity
`N` and every accessor object has just been constructed on pipe `0`. -/
def Memory.fresh {T : Type} (N : Nat) (AccessMode : access.mode) : Memory T :=
  { pipes := PipeHeap.fresh N
    accessors := fun _ => accessor.construct AccessMode 0 handler.mk }

/-! ## The scenarios of section 8 of the specification -/

namespace S1

/-- The write accessor `a` of scenario S1, on the pipe at address `0`. -/
def a : accessor Int := accessor.construct access.mode.write 0 handler.mk

/-- The state after `a << 1` on `p = Pipe<int>(3)`. -/
def w1 : accessor Int × PipeHeap Int := a.operator_shl 1 (PipeHeap.fresh 3)

/-- The state after `a << 1; a << 2`. -/
def w2 : accessor Int × PipeHeap Int := w1.1.operator_shl 2 w1.2

/-- The state after `a << 1; a << 2; a << 3`. -/
def w3 : accessor Int × PipeHeap Int := w2.1.operator_shl 3 w2.2

end S1

namespace S2

/-- The read accessor `b` of scenario S2, on the pipe at address `0`. -/
def b : accessor Int := accessor.construct access.mode.read 0 handler.mk

/-- A read accessor of a pipe of `bool` that has been used: on a pipe of capacity 1
a write accessor has written `true` and the read accessor has read it into a
variable. The result is the read accessor (its `ok` is `true`), the variable,
and the heap, in which the pipe is empty again. -/
def used : accessor Bool × Bool × PipeHeap Bool :=
  (accessor.construct access.mode.read 0 handler.mk : accessor Bool).read
    (destination.object false)
    ((accessor.construct access.mode.write 0 handler.mk : accessor Bool).write true
      (PipeHeap.fresh 1)).2

end S2

namespace S3

/-- The calls of scenario S3: a write accessor at address `0` and a read accessor
at address `1` on the same pipe; write 10, read, write 20, write 30, read, read,
read. The destination holds `0` before each read. -/
def calls : List (Call Int) :=
  [Call.construct 0 access.mode.write 0, Call.construct 1 access.mode.read 0,
    Call.write 0 10, Call.read 1 (destination.object 0),
    Call.write 0 20, Call.write 0 30,
    Call.read 1 (destination.object 0), Call.read 1 (destination.object 0),
    Call.read 1 (destination.object 0)]

end S3

namespace S6

/-- The calls of scenario S6: two write accessors `a1`, `a2` (addresses `0`, `1`)
and a read accessor (address `2`) on the same pipe; `a1 << 1; a2 << 2;` then
two reads. -/
def calls : List (Call Int) :=
  [Call.construct 0 access.mode.write 0, Call.construct 1 access.mode.write 0,
    Call.construct 2 access.mode.read 0,
    Call.operator_shl 0 1, Call.operator_shl 1 2,
    Call.operator_shr 2 (destination.object 0), Call.operator_shr 2 (destination.object 0)]

end S6

namespace aliased

/-- The calls of a program on a pipe of `bool`: a write accessor at address `0`
and a read accessor `b` at address `1` on the same pipe; `false` is written,
then read by `b.read(b.ok)`. -/
def calls : List (Call Bool) :=
  [Call.construct 0 access.mode.write 0, Call.construct 1 access.mode.read 0,
    Call.write 0 false, Call.read 1 (destination.ok rfl)]

end aliased

end detail

end cl.sycl

/-! ## The ring buffer of the pipe -/

namespace cl.sycl.detail

namespace pipe

variable {T : Type}

theorem add_mod_ne_self {N start k : Nat} (hs : start < N) (hk0 : 0 < k) (hk : k < N) :
    (start + k) % N ≠ start := by
  by_cases h : start + k < N
  · rw [Nat.mod_eq_of_lt h]; omega
  · rw [Nat.mod_eq_sub_mod (by omega), Nat.mod_eq_of_lt (by omega)]; omega

theorem slots_set_of_not_visited (storage : List (Option T)) (N j : Nat) (x : Option T) :
    ∀ (n start : Nat), start < N → (∀ i, i < n → (start + i) % N ≠ j) →
      slots (storage.set j x) N start n = slots storage N start n := by
  intro n
  induction n with
  | zero => intro start _ _; rfl
  | succ n ih =>
    intro start hs hv
    have h0 : start ≠ j := by
      have := hv 0 (Nat.succ_pos n)
      rwa [Nat.add_zero, Nat.mod_eq_of_lt hs] at this
    have hN : 0 < N := by omega
    have hrest : ∀ i, i < n → ((start + 1) % N + i) % N ≠ j := by
      intro i hi
      have := hv (i + 1) (by omega)
      rwa [Nat.mod_add_mod, Nat.add_assoc, Nat.add_comm 1 i]
    simp only [slots]
    rw [ih ((start + 1) % N) (Nat.mod_lt _ hN) hrest]
    congr 2
    simp [List.getElem?_set, Ne.symm h0]

theorem slots_set_append (storage : List (Option T)) (N : Nat) (v : T)
    (hlen : storage.length = N) :
    ∀ (n start : Nat), start < N → n < N →
      slots (storage.set ((start + n) % N) (some v)) N start (n + 1)
        = slots storage N start n ++ [some v] := by
  intro n
  induction n with
  | zero =>
    intro start hs _
    simp [slots, Nat.mod_eq_of_lt hs, hlen, hs]
  | succ n ih =>
    intro start hs hn
    have hN : 0 < N := by omega
    have hne : (start + (n + 1)) % N ≠ start := add_mod_ne_self hs (Nat.succ_pos n) hn
    have ht : (start + (n + 1)) % N = ((start + 1) % N + n) % N := by
      rw [Nat.mod_add_mod]; congr 1; omega
    have := ih ((start + 1) % N) (Nat.mod_lt _ hN) (by omega)
    rw [← ht] at this
    rw [slots, this, slots]
    simp [List.getElem?_set, hne]

theorem write_full (p : pipe T) (value : T) (h : p.count = p.capacity) :
    p.write value = (false, p) := by
  simp [write, h]

theorem write_fst (p : pipe T) (value : T) :
    (p.write value).1 = !decide (p.count = p.capacity) := by
  unfold write; split <;> simp [*]

theorem read_empty (p : pipe T) (out : T) (h : p.count = 0) :
    p.read out = (false, out, p) := by
  simp [read, h]

theorem read_fst (p : pipe T) (out : T) :
    (p.read out).1 = !decide (p.count = 0) := by
  unfold read; split <;> simp [*]

theorem write_failed (p : pipe T) (value : T) (h : (p.write value).1 = false) :
    (p.write value).2 = p := by
  unfold write at h ⊢; split <;> simp_all

theorem read_failed (p : pipe T) (out : T) (h : (p.read out).1 = false) :
    (p.read out).2 = (out, p) := by
  unfold read at h ⊢; split <;> simp_all

theorem elems_write (p : pipe T) (value : T) (hw : p.wf) (h : (p.write value).1 = true) :
    (p.write value).2.elems = p.elems ++ [some value] := by
  obtain ⟨hN, hlen, hc, hh, ht, _⟩ := hw
  have hfull : ¬ p.count = p.capacity := by
    intro hf; rw [write_full p value hf] at h; cases h
  simp only [write, hfull, if_false, elems]
  rw [ht]
  exact slots_set_append p.storage p.capacity value hlen p.count p.head hh (by omega)

theorem wf_write (p : pipe T) (value : T) (hw : p.wf) : (p.write value).2.wf := by
  by_cases hfull : p.count = p.capacity
  · rw [write_full p value hfull]; exact hw
  · have he := elems_write p value hw (by rw [write_fst]; simp [hfull])
    obtain ⟨hN, hlen, hc, hh, ht, hall⟩ := hw
    refine ⟨?_, ?_, ?_, ?_, ?_, ?_⟩
    · simpa [write, hfull] using hN
    · simpa [write, hfull] using hlen
    · simp only [write, hfull, if_false]; omega
    · simpa [write, hfull] using hh
    · simp only [write, hfull, if_false]
      rw [ht, Nat.mod_add_mod, Nat.add_assoc]
    · intro o ho
      rw [he] at ho
      rcases List.mem_append.1 ho with ho | ho
      · exact hall o ho
      · simp at ho; simp [ho]

theorem elems_read (p : pipe T) (out : T) (hw : p.wf) (h : (p.read out).1 = true) :
    p.elems = some (p.read out).2.1 :: (p.read out).2.2.elems := by
  obtain ⟨hN, hlen, hc, hh, ht, hall⟩ := hw
  have hne : ¬ p.count = 0 := by
    intro hf; rw [read_empty p out hf] at h; cases h
  obtain ⟨c, hcount⟩ := Nat.exists_eq_succ_of_ne_zero hne
  have hvis : ∀ i, i < c → ((p.head + 1) % p.capacity + i) % p.capacity ≠ p.head := by
    intro i hi
    rw [Nat.mod_add_mod, Nat.add_assoc]
    exact add_mod_ne_self hh (by omega) (by omega)
  have hrest := slots_set_of_not_visited p.storage p.capacity p.head none c
    ((p.head + 1) % p.capacity) (Nat.mod_lt _ hN) hvis
  have hsome := hall ((p.storage.get? p.head).join) (by simp [elems, hcount, slots])
  obtain ⟨v, hv⟩ := Option.isSome_iff_exists.1 hsome
  simp only [read, hne, if_false, elems]
  rw [hcount, Nat.succ_sub_one, hrest, slots, hv]
  rfl

theorem wf_read (p : pipe T) (out : T) (hw : p.wf) : (p.read out).2.2.wf := by
  by_cases hempty : p.count = 0
  · rw [read_empty p out hempty]; exact hw
  · have he := elems_read p out hw (by rw [read_fst]; simp [hempty])
    obtain ⟨hN, hlen, hc, hh, ht, hall⟩ := hw
    refine ⟨?_, ?_, ?_, ?_, ?_, ?_⟩
    · simpa [read, hempty] using hN
    · simpa [read, hempty] using hlen
    · simp only [read, hempty, if_false]; omega
    · simp only [read, hempty, if_false]; exact Nat.mod_lt _ hN
    · simp only [read, hempty, if_false]
      rw [ht, Nat.mod_add_mod]
      congr 1; omega
    · intro o ho
      exact hall o (by rw [he]; exact List.mem_cons_of_mem _ ho)

theorem wf_init (N : Nat) (hN : 0 < N) : (init N : pipe T).wf := by
  refine ⟨hN, ?_, ?_, ?_, ?_, ?_⟩ <;> simp [init, elems, slots, hN]

end pipe

end cl.sycl.detail

/-! ## Programs: status of the handles and order of delivery -/

namespace cl.sycl.detail

namespace Memory

variable {T : Type}

theorem run_nil (m : Memory T) : m.run [] = (m, []) := rfl

theorem run_cons (m : Memory T) (c : Call T) (cs : List (Call T)) :
    m.run (c :: cs) = ((run (m.step c).1 cs).1, (m.step c).2 :: (run (m.step c).1 cs).2) := rfl

theorem step_status (m : Memory T) (c : Call T) :
    (fun i => ((m.step c).1.accessors i).ok)
      = Event.status (fun i => (m.accessors i).ok) (m.step c).2 := by
  funext i
  cases c <;>
    simp only [step, Event.status, Function.update_apply, accessor.construct, accessor.copy,
      accessor.write, accessor.read, accessor.operator_shl, accessor.operator_shr] <;>
    split <;> simp_all

theorem step_observer (m : Memory T) (c : Call T) (h : c.isObserver = true) :
    (m.step c).1 = m := by
  cases c <;> first | rfl | cases h

end Memory

/-- Claim C1, as amended. After any sequence of calls from any program state, the
boolean conversion of every accessor handle is the success flag the pipe
returned for the most recent read or write called on that handle; if none was
called on it since it was constructed, it is `false` for a handle built by the
constructor from a pipe and, for a copy, the status its source had when the
copy was made. -/
theorem operator_bool_is_last_status {T : Type} (m : Memory T) (cs : List (Call T)) (a : Nat) :
    ((m.run cs).1.accessors a).operator_bool
      = Event.statusAfter (fun i => (m.accessors i).ok) (m.run cs).2 a := by
  induction cs generalizing m with
  | nil => rfl
  | cons c cs ih =>
    rw [Memory.run_cons]
    simp only [Event.statusAfter, List.foldl_cons]
    rw [← Memory.step_status]
    exact ih (m.step c).1

/-- Claim C1 fails as stated. On a pipe of capacity 1: construct a write accessor at
address 0, write 7 through it (the pipe accepts), copy it to address 1. No read
or write was ever called on the copy, yet it converts to `true`. -/
theorem copy_starts_with_status_of_source :
    (((Memory.fresh 1 access.mode.write : Memory Int).run
        [Call.construct 0 access.mode.write 0, Call.write 0 7, Call.copy 1 0]).1.accessors 1).operator_bool
        = true ∧
    Event.spec_statusAfter (fun i => ((Memory.fresh 1 access.mode.write : Memory Int).accessors i).ok)
      ((Memory.fresh 1 access.mode.write : Memory Int).run
        [Call.construct 0 access.mode.write 0, Call.write 0 7, Call.copy 1 0]).2 1 = false := by
  decide

end cl.sycl.detail

/-! ## Single calls on an accessor -/

namespace cl.sycl.detail

/-- Claim C2. On a pipe whose count equals its capacity, a write through an accessor
fails: the accessor converts to `false`, and the heap, hence the pipe, its
`size()` and its stored elements, is the same as before the call. The same
holds for `operator<<`. -/
theorem write_on_full_pipe {T : Type} (a : accessor T) (h : PipeHeap T) (v : T)
    (hfull : (h a.implementation).count = (h a.implementation).capacity) :
    (a.write v h).1.operator_bool = false ∧
    (a.write v h).2 = h ∧
    (a.write v h).1.size (a.write v h).2 = a.size h ∧
    ((a.write v h).2 a.implementation).storage = (h a.implementation).storage ∧
    ((a.write v h).2 a.implementation).elems = (h a.implementation).elems ∧
    a.operator_shl v h = ({ a with ok := false }, h) := by
  have hw : a.write v h = ({ a with ok := false }, h) := by
    simp [accessor.write, pipe.write_full _ v hfull]
  refine ⟨?_, ?_, ?_, ?_, ?_, ?_⟩
  · rw [hw]; rfl
  · rw [hw]
  · rw [hw]; rfl
  · rw [hw]
  · rw [hw]
  · exact hw

/-- Scenario S1 of the specification, witness of claim C2: the pipe of capacity 3 is
full after `a << 1; a << 2; a << 3` (each accepted), and `a << 4` then fails. -/
theorem write_on_full_pipe_witness :
    (S1.w1.1.operator_bool = true ∧ S1.w2.1.operator_bool = true ∧
      S1.w3.1.operator_bool = true ∧ S1.w3.1.size S1.w3.2 = 3 ∧ S1.w3.1.full S1.w3.2 = true) ∧
    (S1.w3.2 S1.w3.1.implementation).count = (S1.w3.2 S1.w3.1.implementation).capacity ∧
    ((S1.w3.1.write 4 S1.w3.2).1.operator_bool = false ∧
      (S1.w3.1.write 4 S1.w3.2).2 = S1.w3.2 ∧
      (S1.w3.1.write 4 S1.w3.2).1.size (S1.w3.1.write 4 S1.w3.2).2 = S1.w3.1.size S1.w3.2 ∧
      ((S1.w3.1.write 4 S1.w3.2).2 S1.w3.1.implementation).storage
        = (S1.w3.2 S1.w3.1.implementation).storage ∧
      ((S1.w3.1.write 4 S1.w3.2).2 S1.w3.1.implementation).elems
        = (S1.w3.2 S1.w3.1.implementation).elems ∧
      S1.w3.1.operator_shl 4 S1.w3.2 = ({ S1.w3.1 with ok := false }, S1.w3.2)) :=
  ⟨by decide, by decide, write_on_full_pipe S1.w3.1 S1.w3.2 4 (by decide)⟩

/-- Claim C3, as amended. On an empty pipe, a read into a destination that holds
`x0` and is not the `ok` flag of the accessor the read is called on returns
(the function is total), leaves the destination equal to `x0`, leaves the heap,
hence the pipe, unchanged, and the accessor converts to `false` afterwards; the
same holds for `operator>>`. Whatever the destination, the read leaves the heap
unchanged and the accessor converts to `false` afterwards. -/
theorem read_on_empty_pipe {T : Type} (b : accessor T) (h : PipeHeap T) (x0 : T)
    (value : destination T) (hempty : (h b.implementation).count = 0) :
    (b.read (destination.object x0) h).1.operator_bool = false ∧
    (b.read (destination.object x0) h).2.1 = x0 ∧
    (b.read (destination.object x0) h).2.2 = h ∧
    b.operator_shr (destination.object x0) h = ({ b with ok := false }, x0, h) ∧
    (b.read value h).1.operator_bool = false ∧
    (b.read value h).2.2 = h ∧
    (b.read value h).1.implementation = b.implementation := by
  have hr : b.read (destination.object x0) h = ({ b with ok := false }, x0, h) := by
    simp [accessor.read, destination.load, destination.store, pipe.read_empty _ x0 hempty]
  have hv : (b.read value h).1.operator_bool = false ∧ (b.read value h).2.2 = h ∧
      (b.read value h).1.implementation = b.implementation := by
    cases value <;>
      simp [accessor.read, accessor.operator_bool, destination.store,
        pipe.read_empty _ _ hempty]
  refine ⟨?_, ?_, ?_, ?_, hv⟩
  · rw [hr]; rfl
  · rw [hr]
  · rw [hr]
  · exact hr

/-- Scenario S2 of the specification, witness of claim C3: `b >> x` with `x = 5` on the
freshly constructed `Pipe<int>(1)`. -/
theorem read_on_empty_pipe_witness :
    ((PipeHeap.fresh 1 : PipeHeap Int) S2.b.implementation).count = 0 ∧
    ((S2.b.read (destination.object 5) (PipeHeap.fresh 1)).1.operator_bool = false ∧
      (S2.b.read (destination.object 5) (PipeHeap.fresh 1)).2.1 = 5 ∧
      (S2.b.read (destination.object 5) (PipeHeap.fresh 1)).2.2 = PipeHeap.fresh 1 ∧
      S2.b.operator_shr (destination.object 5) (PipeHeap.fresh 1)
        = ({ S2.b with ok := false }, 5, PipeHeap.fresh 1) ∧
      (S2.b.read (destination.object 5) (PipeHeap.fresh 1)).1.operator_bool = false ∧
      (S2.b.read (destination.object 5) (PipeHeap.fresh 1)).2.2 = PipeHeap.fresh 1 ∧
      (S2.b.read (destination.object 5) (PipeHeap.fresh 1)).1.implementation
        = S2.b.implementation) :=
  ⟨by decide,
    read_on_empty_pipe S2.b (PipeHeap.fresh 1) 5 (destination.object 5) (by decide)⟩

/-- Claim C3 fails as stated. A read accessor `b` of a pipe of `bool` has read `true`
into a variable, so `b.ok` is `true` and the pipe is empty. The destination of
`b.read(b.ok)` holds `true` before the call and `false` after it: the read
fails and its flag is assigned to `ok`, which is the destination. -/
theorem read_into_own_ok_changes_destination :
    (S2.used.2.2 S2.used.1.implementation).count = 0 ∧
    (destination.ok rfl).load S2.used.1 = true ∧
    (S2.used.1.read (destination.ok rfl) S2.used.2.2).2.1 = false ∧
    (S2.used.1.operator_shr (destination.ok rfl) S2.used.2.2).2.1 = false := by
  decide

/-- Claim C5. The operators `<<` and `>>` are aliases of `write` and `read`: on every
accessor, heap, value and destination they leave the same handle (the same
`ok`), the same destination and the same heap, whether called directly or as a
call of a program. -/
theorem operators_are_aliases {T : Type} (a : accessor T) (h : PipeHeap T) (x : T)
    (r : destination T) (m : Memory T) (i : Nat) :
    a.operator_shl x h = a.write x h ∧
    a.operator_shr r h = a.read r h ∧
    m.step (Call.operator_shl i x) = m.step (Call.write i x) ∧
    m.step (Call.operator_shr i r) = m.step (Call.read i r) :=
  ⟨rfl, rfl, rfl, rfl⟩

/-- Claim C8. Chaining does not retry: `a.write(x).write(y)` and `a << x << y` leave
the pipe of `a` in the state obtained by the pipe's write of `x` followed by the
pipe's write of `y`, every other pipe as it was, and `bool(a)` equal to the flag
of the write of `y` alone. As calls of a program on the accessor object at
address `i`, the chain is two writes on the pipe `i` is bound to: one of `x`,
then one of `y` on the state the first left. -/
theorem chained_writes {T : Type} (a : accessor T) (h : PipeHeap T) (x y : T)
    (m : Memory T) (i : Nat) :
    ((a.write x h).1.write y (a.write x h).2).2
      = Function.update h a.implementation
          ((((h a.implementation).write x).2).write y).2 ∧
    ((a.write x h).1.write y (a.write x h).2).1.operator_bool
      = ((((h a.implementation).write x).2).write y).1 ∧
    ((a.write x h).1.write y (a.write x h).2).1.implementation = a.implementation ∧
    (a.operator_shl x h).1.operator_shl y (a.operator_shl x h).2
      = (a.write x h).1.write y (a.write x h).2 ∧
    (m.run [Call.write i x, Call.write i y]).2
      = [Event.wrote i (m.accessors i).implementation x
            ((m.pipes (m.accessors i).implementation).write x).1,
          Event.wrote i (m.accessors i).implementation y
            ((((m.pipes (m.accessors i).implementation).write x).2).write y).1] := by
  refine ⟨?_, ?_, rfl, rfl, ?_⟩
  · simp [accessor.write]
  · simp [accessor.write, accessor.operator_bool]
  · simp [Memory.run, Memory.step, accessor.write]

/-- Claim C9. The observers of the accessor forward to the pipe: `capacity()`,
`size()`, `empty()` and `full()` return the values of the pipe's own observers
on the pipe the accessor is bound to. -/
theorem observers_forward {T : Type} (a : accessor T) (h : PipeHeap T) :
    a.capacity h = (h a.implementation).capacity ∧
    a.size h = (h a.implementation).size ∧
    a.empty h = (h a.implementation).empty ∧
    a.full h = (h a.implementation).full :=
  ⟨rfl, rfl, rfl, rfl⟩

end cl.sycl.detail

/-! ## Order of delivery -/

namespace cl.sycl.detail

namespace Memory

variable {T : Type}

theorem step_fifo (m : Memory T) (c : Call T) (p : Nat) (hw : (m.pipes p).wf)
    (hc : c.readsIntoOk = false) :
    ((m.step c).1.pipes p).wf ∧
    (m.pipes p).elems ++ (Event.written p [(m.step c).2]).map some
      = (Event.delivered p [(m.step c).2]).map some ++ ((m.step c).1.pipes p).elems := by
  have hwrite : ∀ (a : Nat) (value : T),
      (Function.update m.pipes (m.accessors a).implementation
          ((m.pipes (m.accessors a).implementation).write value).2 p).wf ∧
      (m.pipes p).elems ++ (Event.written p [Event.wrote a (m.accessors a).implementation value
          ((m.pipes (m.accessors a).implementation).write value).1]).map some
        = ((Event.delivered p [Event.wrote a (m.accessors a).implementation value
          ((m.pipes (m.accessors a).implementation).write value).1]).map some : List (Option T))
          ++ (Function.update m.pipes (m.accessors a).implementation
          ((m.pipes (m.accessors a).implementation).write value).2 p).elems := by
    intro a value
    by_cases hq : p = (m.accessors a).implementation
    · subst hq
      rw [Function.update_same]
      refine ⟨pipe.wf_write _ value hw, ?_⟩
      cases hs : ((m.pipes (m.accessors a).implementation).write value).1
      · rw [pipe.write_failed _ value hs]; simp [Event.written, Event.delivered]
      · rw [pipe.elems_write _ value hw hs]; simp [Event.written, Event.delivered]
    · rw [Function.update_noteq hq]
      refine ⟨hw, ?_⟩
      cases ((m.pipes (m.accessors a).implementation).write value).1 <;>
        simp [Event.written, Event.delivered, Ne.symm hq]
  have hread : ∀ (a : Nat) (value : T),
      (Function.update m.pipes (m.accessors a).implementation
          ((m.pipes (m.accessors a).implementation).read value).2.2 p).wf ∧
      (m.pipes p).elems ++ (Event.written p [Event.got a (m.accessors a).implementation
          ((m.pipes (m.accessors a).implementation).read value).2.1
          ((m.pipes (m.accessors a).implementation).read value).1]).map some
        = ((Event.delivered p [Event.got a (m.accessors a).implementation
          ((m.pipes (m.accessors a).implementation).read value).2.1
          ((m.pipes (m.accessors a).implementation).read value).1]).map some : List (Option T))
          ++ (Function.update m.pipes (m.accessors a).implementation
          ((m.pipes (m.accessors a).implementation).read value).2.2 p).elems := by
    intro a value
    by_cases hq : p = (m.accessors a).implementation
    · subst hq
      rw [Function.update_same]
      refine ⟨pipe.wf_read _ value hw, ?_⟩
      cases hs : ((m.pipes (m.accessors a).implementation).read value).1
      · rw [pipe.read_failed _ value hs]; simp [Event.written, Event.delivered]
      · rw [pipe.elems_read _ value hw hs]; simp [Event.written, Event.delivered]
    · rw [Function.update_noteq hq]
      refine ⟨hw, ?_⟩
      cases ((m.pipes (m.accessors a).implementation).read value).1 <;>
        simp [Event.written, Event.delivered, Ne.symm hq]
  cases c with
  | write a value => exact hwrite a value
  | operator_shl a value => exact hwrite a value
  | read a value =>
    cases value with
    | object x0 => exact hread a x0
    | ok hT => simp [Call.readsIntoOk, destination.isOk] at hc
  | operator_shr a value =>
    cases value with
    | object x0 => exact hread a x0
    | ok hT => simp [Call.readsIntoOk, destination.isOk] at hc
  | _ => exact ⟨hw, by simp [step, Event.written, Event.delivered]⟩

end Memory

namespace Event

variable {T : Type}

theorem written_cons (p : Nat) (e : Event T) (log : List (Event T)) :
    written p (e :: log) = written p [e] ++ written p log := by
  cases e with
  | wrote a q value success =>
    cases success <;> simp [written]
    split <;> simp
  | _ => simp [written]

theorem delivered_cons (p : Nat) (e : Event T) (log : List (Event T)) :
    delivered p (e :: log) = delivered p [e] ++ delivered p log := by
  cases e with
  | got a q value success =>
    cases success <;> simp [delivered]
    split <;> simp
  | _ => simp [delivered]

end Event

namespace Memory

variable {T : Type}

theorem run_fifo (cs : List (Call T)) (p : Nat) :
    (∀ c ∈ cs, c.readsIntoOk = false) →
    ∀ (m : Memory T), (m.pipes p).wf →
      ((m.run cs).1.pipes p).wf ∧
      (m.pipes p).elems ++ (Event.written p (m.run cs).2).map some
        = (Event.delivered p (m.run cs).2).map some ++ ((m.run cs).1.pipes p).elems := by
  induction cs with
  | nil => intro _ m hw; exact ⟨hw, by simp [run, Event.written, Event.delivered]⟩
  | cons c cs ih =>
    intro hcs m hw
    obtain ⟨hw1, h1⟩ := step_fifo m c p hw (hcs c (List.mem_cons_self c cs))
    obtain ⟨hw2, h2⟩ :=
      ih (fun d hd => hcs d (List.mem_cons_of_mem _ hd)) (m.step c).1 hw1
    refine ⟨hw2, ?_⟩
    rw [run_cons]
    simp only []
    rw [Event.written_cons, Event.delivered_cons, List.map_append, List.map_append,
      ← List.append_assoc, h1, List.append_assoc, h2, List.append_assoc]

end Memory

/-- Claim C4, as amended. FIFO through accessors. Take a pipe `p` of positive
capacity that satisfies the pipe invariants and is empty (in particular a
freshly constructed one), and run any sequence of calls on any accessor objects
(any number of accessors bound to `p`, copies included) in which no read has
for destination the `ok` flag of the accessor it is called on. Every successful
read from `p` is matched by a successful write to `p`, and the value delivered
by the i-th successful read from `p` is the value passed to the i-th successful
write to `p`. -/
theorem fifo_through_accessors {T : Type} (m : Memory T) (cs : List (Call T)) (p : Nat)
    (hw : (m.pipes p).wf) (hempty : (m.pipes p).empty = true)
    (hdest : ∀ c ∈ cs, c.readsIntoOk = false) (i : Nat)
    (hi : i < (Event.delivered p (m.run cs).2).length) :
    i < (Event.written p (m.run cs).2).length ∧
    (Event.delivered p (m.run cs).2).get? i = (Event.written p (m.run cs).2).get? i := by
  obtain ⟨_, h⟩ := Memory.run_fifo cs p hdest m hw
  have he : (m.pipes p).elems = [] := by
    have hc : (m.pipes p).count = 0 := by simpa [pipe.empty] using hempty
    simp [pipe.elems, hc, pipe.slots]
  rw [he, List.nil_append] at h
  have hlen := congrArg List.length h
  simp only [List.length_map, List.length_append] at hlen
  have hget := congrArg (fun l => l.get? i) h
  simp only [List.get?_eq_getElem?, List.getElem?_map] at hget
  rw [List.getElem?_append_left (by simpa using hi), List.getElem?_map] at hget
  refine ⟨by omega, ?_⟩
  simp only [List.get?_eq_getElem?]
  have hi2 : i < (Event.written p (m.run cs).2).length := by omega
  rw [List.getElem?_eq_getElem hi, List.getElem?_eq_getElem hi2] at hget ⊢
  simpa using hget.symm

end cl.sycl.detail

namespace cl.sycl.detail

/-- Scenarios S3 and S6 of the specification, witness of claim C4. S3: capacity 2, write 10, read
10, write 20 and 30 (the buffer wraps around), read 20, read 30, and a last read
that fails. S6: two write accessors `a1 << 1; a2 << 2;`, then two reads yield
1 and 2. -/
theorem fifo_through_accessors_witness :
    (((Memory.fresh 2 access.mode.write : Memory Int).pipes 0).wf ∧
      ((Memory.fresh 2 access.mode.write : Memory Int).pipes 0).empty = true ∧
      (∀ c ∈ S3.calls, c.readsIntoOk = false) ∧
      2 < (Event.delivered 0 ((Memory.fresh 2 access.mode.write).run S3.calls).2).length) ∧
    (2 < (Event.written 0 ((Memory.fresh 2 access.mode.write).run S3.calls).2).length ∧
      (Event.delivered 0 ((Memory.fresh 2 access.mode.write).run S3.calls).2).get? 2
        = (Event.written 0 ((Memory.fresh 2 access.mode.write).run S3.calls).2).get? 2) ∧
    ((Memory.fresh 2 access.mode.write).run S3.calls).2
      = [Event.constructed 0 0, Event.constructed 1 0,
          Event.wrote 0 0 10 true, Event.got 1 0 10 true,
          Event.wrote 0 0 20 true, Event.wrote 0 0 30 true,
          Event.got 1 0 20 true, Event.got 1 0 30 true, Event.got 1 0 0 false] ∧
    ((Memory.fresh 2 access.mode.write).run S6.calls).2
      = [Event.constructed 0 0, Event.constructed 1 0, Event.constructed 2 0,
          Event.wrote 0 0 1 true, Event.wrote 1 0 2 true,
          Event.got 2 0 1 true, Event.got 2 0 2 true] :=
  ⟨by decide,
    fifo_through_accessors (Memory.fresh 2 access.mode.write) S3.calls 0
      (by decide) (by decide) (by decide) 2 (by decide),
    by decide, by decide⟩

/-- Claim C4 fails as stated. On a fresh pipe of `bool` of capacity 1, `false` is
written through a write accessor and then read by `b.read(b.ok)` through a read
accessor `b`. Both calls succeed; the value passed to the first successful
write is `false`, the value the first successful read leaves in its destination
is `true`: the flag of the read, assigned to `ok` after the element. -/
theorem read_into_own_ok_delivers_flag :
    ((Memory.fresh 1 access.mode.write : Memory Bool).pipes 0).wf ∧
    ((Memory.fresh 1 access.mode.write : Memory Bool).pipes 0).empty = true ∧
    ((Memory.fresh 1 access.mode.write : Memory Bool).run aliased.calls).2
      = [Event.constructed 0 0, Event.constructed 1 0,
          Event.wrote 0 0 false true, Event.got 1 0 true true] ∧
    0 < (Event.delivered 0
      ((Memory.fresh 1 access.mode.write : Memory Bool).run aliased.calls).2).length ∧
    (Event.written 0
      ((Memory.fresh 1 access.mode.write : Memory Bool).run aliased.calls).2).get? 0
        = some false ∧
    (Event.delivered 0
      ((Memory.fresh 1 access.mode.write : Memory Bool).run aliased.calls).2).get? 0
        = some true := by
  decide

/-- Claim C6. A copy shares the pipe but has its own `ok`. From any program state,
copy the accessor at address `ia` to a different address `ib` and call
`write(x)` on the copy: the copy is bound to the pipe of the original, that
pipe is left as the pipe's write of `x` leaves it (so an accepted element is in
the pipe of the original), `bool` of the copy is the flag the pipe returned,
and the original object, hence its `bool`, is what it was before. -/
theorem copy_shares_pipe_not_ok {T : Type} (m : Memory T) (ia ib : Nat) (x : T)
    (hne : ia ≠ ib) :
    ((m.run [Call.copy ib ia, Call.write ib x]).1.accessors ib).implementation
      = (m.accessors ia).implementation ∧
    (m.run [Call.copy ib ia, Call.write ib x]).1.pipes (m.accessors ia).implementation
      = ((m.pipes (m.accessors ia).implementation).write x).2 ∧
    ((m.run [Call.copy ib ia, Call.write ib x]).1.accessors ib).operator_bool
      = ((m.pipes (m.accessors ia).implementation).write x).1 ∧
    (m.run [Call.copy ib ia, Call.write ib x]).1.accessors ia = m.accessors ia ∧
    ((m.run [Call.copy ib ia, Call.write ib x]).1.accessors ia).operator_bool
      = (m.accessors ia).operator_bool := by
  simp [Memory.run, Memory.step, accessor.copy, accessor.write, accessor.operator_bool,
    Function.update_noteq hne]

/-- Witness of claim C6: on a pipe of capacity 1, the accessor at address 0 has written 7
(accepted); its copy at address 1 then writes 8, which the full pipe refuses.
The copy converts to `false`, the original still converts to `true`. -/
theorem copy_shares_pipe_not_ok_witness :
    (0 : Nat) ≠ 1 ∧
    ((((Memory.fresh 1 access.mode.write : Memory Int).step (Call.write 0 7)).1.accessors 0).operator_bool
        = true ∧
      ((((Memory.fresh 1 access.mode.write : Memory Int).step (Call.write 0 7)).1.run
        [Call.copy 1 0, Call.write 1 8]).1.accessors 1).operator_bool = false ∧
      ((((Memory.fresh 1 access.mode.write : Memory Int).step (Call.write 0 7)).1.run
        [Call.copy 1 0, Call.write 1 8]).1.accessors 0).operator_bool = true) ∧
    ((((Memory.fresh 1 access.mode.write : Memory Int).step (Call.write 0 7)).1.run
        [Call.copy 1 0, Call.write 1 8]).1.accessors 0).operator_bool
      = ((((Memory.fresh 1 access.mode.write : Memory Int).step
          (Call.write 0 7)).1).accessors 0).operator_bool :=
  ⟨by decide, by decide,
    (copy_shares_pipe_not_ok ((Memory.fresh 1 access.mode.write : Memory Int).step (Call.write 0 7)).1
      0 1 8 (by decide)).2.2.2.2⟩

/-- Claim C7 fails as stated. A read accessor on an empty pipe of capacity 1: `write(7)`
is carried out (the accessor converts to `true` and the pipe holds 7) where the
specification rejects the call; likewise `read` on a write accessor empties a
pipe that holds 7. -/
theorem wrong_mode_call_is_carried_out :
    ((S2.b.AccessMode = access.mode.read ∧
      (spec.write S2.b 7 (PipeHeap.fresh 1)).isNone = true ∧
      (S2.b.write 7 (PipeHeap.fresh 1)).1.operator_bool = true ∧
      ((S2.b.write 7 (PipeHeap.fresh 1)).2 0).elems = [some 7] ∧
      (S2.b.operator_shl 7 (PipeHeap.fresh 1)).1.operator_bool = true)) ∧
    (S1.a.AccessMode = access.mode.write ∧
      (spec.read S1.a 0 (S1.a.write 7 (PipeHeap.fresh 1)).2).isNone = true ∧
      (S1.a.read (destination.object 0)
        (S1.a.write 7 (PipeHeap.fresh 1)).2).1.operator_bool = true ∧
      (S1.a.read (destination.object 0) (S1.a.write 7 (PipeHeap.fresh 1)).2).2.1 = 7 ∧
      (S1.a.operator_shr (destination.object 0)
        (S1.a.write 7 (PipeHeap.fresh 1)).2).2.1 = 7) := by
  decide

/-- Claim C7, as amended. The accessor does not restrict its operations by mode:
for every mode, `write`, `operator<<`, `read` and `operator>>` are defined and
leave the pipe, the destination and `ok` exactly as they do on an accessor of
any other mode bound to the same pipe (the mode itself is kept); they are the
operations of the specification on the modes the specification lets through. -/
theorem mode_is_not_consulted {T : Type} (a : accessor T) (AccessMode : access.mode)
    (h : PipeHeap T) (x r : T) (d : destination T) :
    ({ a with AccessMode := AccessMode }.write x h).2 = (a.write x h).2 ∧
    ({ a with AccessMode := AccessMode }.write x h).1
      = { (a.write x h).1 with AccessMode := AccessMode } ∧
    { a with AccessMode := AccessMode }.operator_shl x h
      = { a with AccessMode := AccessMode }.write x h ∧
    ({ a with AccessMode := AccessMode }.read d h).2 = (a.read d h).2 ∧
    ({ a with AccessMode := AccessMode }.read d h).1
      = { (a.read d h).1 with AccessMode := AccessMode } ∧
    { a with AccessMode := AccessMode }.operator_shr d h
      = { a with AccessMode := AccessMode }.read d h ∧
    spec.write a x h = (if spec.exposes_write a.AccessMode then some (a.write x h) else none) ∧
    spec.read a r h
      = (if spec.exposes_read a.AccessMode then some (a.read (destination.object r) h)
          else none) := by
  refine ⟨rfl, rfl, rfl, ?_, ?_, rfl, rfl, rfl⟩
  · cases d <;> rfl
  · cases d <;> rfl

/-- Claim C10. Observers do not disturb the recorded status: a sequence of calls of
`capacity()`, `size()`, `empty()`, `full()` and the boolean conversion, on any
accessors, leaves the program state as it was, in particular the `ok` flag and
the pipe binding of every accessor; so after a read or a write `c` followed by
any number of observer calls, every accessor still converts to what it
converted to right after `c`. -/
theorem observers_keep_status {T : Type} (m : Memory T) (cs : List (Call T))
    (hobs : ∀ c ∈ cs, c.isObserver = true) :
    (m.run cs).1 = m ∧
    (∀ a, ((m.run cs).1.accessors a).ok = (m.accessors a).ok) ∧
    (∀ a, ((m.run cs).1.accessors a).implementation = (m.accessors a).implementation) ∧
    (∀ c a, (((m.step c).1.run cs).1.accessors a).operator_bool
      = ((m.step c).1.accessors a).operator_bool) := by
  have key : ∀ (cs : List (Call T)), (∀ c ∈ cs, c.isObserver = true) →
      ∀ m : Memory T, (m.run cs).1 = m := by
    intro cs
    induction cs with
    | nil => intro _ m; rfl
    | cons c cs ih =>
      intro h m
      rw [Memory.run_cons]
      simp only []
      rw [Memory.step_observer m c (h c (List.mem_cons_self c cs))]
      exact ih (fun c hc => h c (List.mem_cons_of_mem _ hc)) m
  refine ⟨key cs hobs m, ?_, ?_, ?_⟩
  · intro a; rw [key cs hobs m]
  · intro a; rw [key cs hobs m]
  · intro c a; rw [key cs hobs (m.step c).1]

/-- Witness of claim C10: on a pipe of capacity 1, a write of 7 is accepted; after the five
observers the accessor still converts to `true`. -/
theorem observers_keep_status_witness :
    (∀ c ∈ [Call.capacity 0, Call.size 0, Call.empty 0, Call.full 0,
        (Call.operator_bool 0 : Call Int)], c.isObserver = true) ∧
    ((((Memory.fresh 1 access.mode.write : Memory Int).step (Call.write 0 7)).1.run
        [Call.capacity 0, Call.size 0, Call.empty 0, Call.full 0,
          Call.operator_bool 0]).1.accessors 0).operator_bool
      = (((Memory.fresh 1 access.mode.write : Memory Int).step (Call.write 0 7)).1.accessors
          0).operator_bool ∧
    (((Memory.fresh 1 access.mode.write : Memory Int).step (Call.write 0 7)).1.accessors
          0).operator_bool = true :=
  ⟨by decide,
    (observers_keep_status (Memory.fresh 1 access.mode.write : Memory Int)
      [Call.capacity 0, Call.size 0, Call.empty 0, Call.full 0, Call.operator_bool 0]
      (by decide)).2.2.2 (Call.write 0 7) 0,
    by decide⟩

end cl.sycl.detail
